import Mathlib

set_option autoImplicit false

/-!
Shallow embedding of the generic repository data-access layer of BPA-v2
(`bpa_v2/core/database/repositories.py`), together with the entity base
model of `bpa_v2/core/database/base_model.py`.

Entities are records of column values; a column that was never set models
SQL NULL.  A `ModelClass` plays the role of the SQLAlchemy declarative
model class: it fixes the set of mapped columns (every model of the
repository inherits `id`, `created_at`, `updated_at` from `BaseModel`) and
the set of unique-constrained columns.  A `Session` is the SQLAlchemy
unit of work: `committed` is the durable state restored by `rollback`,
`live` is the current transaction view read by queries and written by
`flush`, `nextId` is the autoincrement sequence (sequences do not roll
back), and `now` models `datetime.utcnow()` at operation time.
-/

namespace BPA

/-- A column value: integers and strings.  An absent column models SQL NULL. -/
inductive Value where
  | vInt : Int → Value
  | vStr : String → Value
deriving DecidableEq, Repr

/-- A filter condition value, as interpreted by `get_by_filters` /
`delete_many`: a Python list becomes a membership (`IN`) test, any other
value an equality test. -/
inductive FilterVal where
  | scalar : Value → FilterVal
  | list : List Value → FilterVal
deriving DecidableEq, Repr

/-- An entity instance: an association list from column name to value.
Lookups take the first binding; a column without a binding is NULL. -/
structure Entity where
  attrs : List (String × Value)
deriving DecidableEq, Repr

/-- First binding of a key in a field mapping (Python `dict` access). -/
def lookupKey (data : List (String × Value)) (k : String) : Option Value :=
  (data.find? (fun kv => kv.1 == k)).map (fun kv => kv.2)

/-- `getattr entity k` for a mapped column: the value, or `none` for NULL. -/
def getAttr (e : Entity) (k : String) : Option Value :=
  lookupKey e.attrs k

def setAttrList (k : String) (v : Value) : List (String × Value) → List (String × Value)
  | [] => [(k, v)]
  | kv :: rest => if kv.1 == k then (k, v) :: rest else kv :: setAttrList k v rest

/-- `setattr entity k v`: overwrite the binding for `k` (or add it). -/
def setAttr (e : Entity) (k : String) (v : Value) : Entity :=
  ⟨setAttrList k v e.attrs⟩

/-- The SQLAlchemy model class bound to a repository.  All concrete models
of the repository inherit from `BaseModel`, so `id`, `created_at` and
`updated_at` are always mapped columns. -/
structure ModelClass where
  name : String
  extraCols : List String
  uniqueCols : List String
deriving DecidableEq, Repr

/-- The mapped columns of the model class: the `BaseModel` columns plus the
model's own ones.  `hasattr(entity, k)` and `getattr(model_class, k)`
succeed exactly for these. -/
def ModelClass.columns (mc : ModelClass) : List String :=
  "id" :: "created_at" :: "updated_at" :: mc.extraCols

/-- The single error kind raised at the repository boundary
(`DatabaseError` of `bpa_v2/core/exceptions/exceptions.py`). -/
inductive DBError where
  | DatabaseError : String → DBError
deriving DecidableEq, Repr

/-- The SQLAlchemy session (unit of work) bound to a repository. -/
structure Session where
  committed : List Entity
  live : List Entity
  nextId : Int
  now : Int
deriving DecidableEq, Repr

/-- `session.rollback()`: discard everything since the last commit. -/
def Session.rollback (s : Session) : Session :=
  { s with live := s.committed }

/-- One filter condition: scalar values test equality (`==`), lists test
membership (`in_`).  A NULL column satisfies neither. -/
def condMatches (e : Entity) (k : String) (fv : FilterVal) : Bool :=
  match fv with
  | .scalar v => getAttr e k == some v
  | .list vs =>
    match getAttr e k with
    | some v => vs.contains v
    | none => false

/-- The conjunction (`and_`) of all conditions of a filter set. -/
def rowMatches (filters : List (String × FilterVal)) (e : Entity) : Bool :=
  filters.all (fun kv => condMatches e kv.1 kv.2)

/-- Code-point lexicographic comparison on character lists (text collation
as in Python / SQL `ORDER BY` on a text column). -/
def charListLe : List Char → List Char → Bool
  | [], _ => true
  | _ :: _, [] => false
  | a :: as, b :: bs =>
    if a.val.toNat = b.val.toNat then charListLe as bs
    else decide (a.val.toNat < b.val.toNat)

/-- Lexicographic order on strings by code point. -/
def strLe (a b : String) : Bool := charListLe a.data b.data

/-- Comparison used by `ORDER BY` on column values. -/
def valueLe : Value → Value → Bool
  | .vInt a, .vInt b => decide (a ≤ b)
  | .vInt _, .vStr _ => true
  | .vStr _, .vInt _ => false
  | .vStr a, .vStr b => strLe a b

/-- `ORDER BY` comparison on a possibly NULL column (NULLs sort last in
ascending order, as in PostgreSQL). -/
def keyLe : Option Value → Option Value → Bool
  | none, none => true
  | none, some _ => false
  | some _, none => true
  | some a, some b => valueLe a b

/-- Row comparison for `order_by` on column `k`; `dsc` flips it (`desc`). -/
def attrLe (k : String) (dsc : Bool) (a b : Entity) : Bool :=
  if dsc then keyLe (getAttr b k) (getAttr a k) else keyLe (getAttr a k) (getAttr b k)

/-- `attrLe` as a relation, for sorting. -/
def entLe (k : String) (dsc : Bool) (a b : Entity) : Prop :=
  attrLe k dsc a b = true

instance (k : String) (dsc : Bool) : DecidableRel (entLe k dsc) :=
  fun a b => inferInstanceAs (Decidable (attrLe k dsc a b = true))

instance {ε α : Type} [DecidableEq ε] [DecidableEq α] : DecidableEq (Except ε α)
  | .error a, .error b =>
    if h : a = b then .isTrue (by rw [h]) else .isFalse (by simp [h])
  | .error _, .ok _ => .isFalse (by simp)
  | .ok _, .error _ => .isFalse (by simp)
  | .ok a, .ok b =>
    if h : a = b then .isTrue (by rw [h]) else .isFalse (by simp [h])

/-- `LIMIT`/`OFFSET` as emitted by `get_by_filters`: the Python guards
`if limit:` and `if offset:` treat both `None` and `0` as absent. -/
def applyPage (limit offset : Option Nat) (rows : List Entity) : List Entity :=
  let rows1 :=
    match offset with
    | some o => if o == 0 then rows else rows.drop o
    | none => rows
  match limit with
  | some l => if l == 0 then rows1 else rows1.take l
  | none => rows1

/-- `Repository.get_by_filters`: conjunctive equality/membership filters,
optional single-field ordering, limit and offset.  Building a condition or
the ordering key for a non-mapped column raises (`getattr` fails), wrapped
as `DatabaseError`; read failures do not roll back. -/
def get_by_filters (mc : ModelClass) (s : Session)
    (filters : List (String × FilterVal)) (order_by : Option String)
    (limit offset : Option Nat) (descending : Bool) :
    Except DBError (List Entity) :=
  if filters.any (fun kv => !(mc.columns.contains kv.1)) then
    .error (.DatabaseError ("Falha ao filtrar " ++ mc.name))
  else
    let rows := s.live.filter (rowMatches filters)
    match order_by with
    | some ob =>
      if mc.columns.contains ob then
        .ok (applyPage limit offset (rows.insertionSort (entLe ob descending)))
      else
        .error (.DatabaseError ("Falha ao filtrar " ++ mc.name))
    | none => .ok (applyPage limit offset rows)

/-- The `filter_by(id=entity_id)` predicate used by `get_by_id`. -/
def idIs (entity_id : Int) (e : Entity) : Bool :=
  getAttr e "id" == some (.vInt entity_id)

/-- `Repository.get_by_id`: first row whose `id` column equals the given
id, or `none`.  "Not found" is not an error. -/
def get_by_id (mc : ModelClass) (s : Session) (entity_id : Int) :
    Except DBError (Option Entity) :=
  .ok (s.live.find? (idIs entity_id))

/-- `model_class(**data)`: the declarative constructor sets exactly the
given fields and rejects a keyword that is not a mapped column. -/
def mkEntity (mc : ModelClass) (data : List (String × Value)) : Except DBError Entity :=
  if data.any (fun kv => !(mc.columns.contains kv.1)) then
    .error (.DatabaseError ("invalid keyword argument for " ++ mc.name))
  else
    .ok ⟨data⟩

/-- A column default: set `k` to `v` if the column is unset (NULL). -/
def defaultCol (k : String) (v : Value) (e : Entity) : Entity :=
  match getAttr e k with
  | none => setAttr e k v
  | some _ => e

/-- Column defaults applied when a new row is flushed: `id` from the
autoincrement sequence when unset, `created_at` / `updated_at` defaulting
to `utcnow` when unset.  Also reports whether the sequence was consumed. -/
def applyDefaults (nid now : Int) (e : Entity) : Entity × Bool :=
  let p :=
    match getAttr e "id" with
    | none => (setAttr e "id" (.vInt nid), true)
    | some _ => (e, false)
  (defaultCol "updated_at" (.vInt now) (defaultCol "created_at" (.vInt now) p.1), p.2)

def hasDupVal : List Value → Bool
  | [] => false
  | v :: vs => vs.contains v || hasDupVal vs

/-- Integrity check of the store enforced whenever a flush writes rows
(INSERT and UPDATE alike): the primary key and every unique-constrained
column must be pairwise distinct among the rows on which they are
non-NULL. -/
def uniqueViolation (mc : ModelClass) (rows : List Entity) : Bool :=
  ("id" :: mc.uniqueCols).any
    (fun col => hasDupVal (rows.filterMap (fun e => getAttr e col)))

/-- Flush a list of newly added rows in order, threading the sequence. -/
def flushNew (nid now : Int) : List Entity → List Entity × Int
  | [] => ([], nid)
  | e :: rest =>
    let p := applyDefaults nid now e
    let q := flushNew (if p.2 then nid + 1 else nid) now rest
    (p.1 :: q.1, q.2)

/-- Argument of `Repository.create`: a field mapping or an entity. -/
inductive CreateArg where
  | dict : List (String × Value) → CreateArg
  | entity : Entity → CreateArg
deriving DecidableEq, Repr

/-- The `isinstance(data, dict)` dispatch of `create`: construct from a
mapping, or take the given entity as is. -/
def buildArg (mc : ModelClass) (data : CreateArg) : Except DBError Entity :=
  match data with
  | .dict d => mkEntity mc d
  | .entity e => .ok e

/-- `Repository.create`: build the entity if needed, `add` + `flush` +
`refresh` it.  Any failure (bad keyword, integrity violation at flush)
rolls the session back and raises `DatabaseError`. -/
def create (mc : ModelClass) (s : Session) (data : CreateArg) :
    Except DBError Entity × Session :=
  match buildArg mc data with
  | .error _ => (.error (.DatabaseError ("Falha ao criar " ++ mc.name)), s.rollback)
  | .ok e0 =>
    if uniqueViolation mc (s.live ++ [(applyDefaults s.nextId s.now e0).1]) then
      (.error (.DatabaseError ("Falha ao criar " ++ mc.name)), s.rollback)
    else
      (.ok (applyDefaults s.nextId s.now e0).1,
        { s with
          live := s.live ++ [(applyDefaults s.nextId s.now e0).1]
          nextId := if (applyDefaults s.nextId s.now e0).2 then s.nextId + 1
            else s.nextId })

/-- Construct all entities of a batch (`model_class(**item)` in a loop);
the first bad item raises. -/
def mkEntities (mc : ModelClass) : List (List (String × Value)) → Except DBError (List Entity)
  | [] => .ok []
  | d :: rest =>
    match mkEntity mc d with
    | .error e => .error e
    | .ok ent => (mkEntities mc rest).map (fun es => ent :: es)

/-- `Repository.bulk_create`: add every entity of the batch, then flush
them together once.  Any failure rolls the whole batch back. -/
def bulk_create (mc : ModelClass) (s : Session) (items : List (List (String × Value))) :
    Except DBError (List Entity) × Session :=
  match mkEntities mc items with
  | .error _ =>
    (.error (.DatabaseError ("Falha ao criar em lote " ++ mc.name)), s.rollback)
  | .ok es0 =>
    if uniqueViolation mc (s.live ++ (flushNew s.nextId s.now es0).1) then
      (.error (.DatabaseError ("Falha ao criar em lote " ++ mc.name)), s.rollback)
    else
      (.ok (flushNew s.nextId s.now es0).1,
        { s with
          live := s.live ++ (flushNew s.nextId s.now es0).1
          nextId := (flushNew s.nextId s.now es0).2 })

/-- The field-application loop of `update` / `upsert`: overwrite, in
dictionary order, every key of `data` that is a mapped column (the
`hasattr` guard); other keys are silently skipped. -/
def applyData (mc : ModelClass) (e : Entity) : List (String × Value) → Entity
  | [] => e
  | kv :: rest =>
    applyData mc (if mc.columns.contains kv.1 then setAttr e kv.1 kv.2 else e) rest

/-- The full in-place mutation `update` / `upsert` perform on a found
entity: apply `data`, then refresh the `BaseModel` update timestamp. -/
def applyUpd (mc : ModelClass) (now : Int) (data : List (String × Value)) (e : Entity) :
    Entity :=
  setAttr (applyData mc e data) "updated_at" (.vInt now)

/-- Replace the first row satisfying `p` (the row object mutated in the
session's identity map), leaving every other row untouched. -/
def replaceFirst (p : Entity → Bool) (e' : Entity) : List Entity → List Entity
  | [] => []
  | x :: xs => if p x then e' :: xs else x :: replaceFirst p e' xs

/-- `Repository.update`: load by id; absent ids return `none` without
error.  Otherwise apply `data` under the `hasattr` guard, refresh
`updated_at`, and flush: a flush that violates a unique constraint raises
`DatabaseError` after rollback, else the updated entity is returned. -/
def update (mc : ModelClass) (s : Session) (entity_id : Int)
    (data : List (String × Value)) : Except DBError (Option Entity) × Session :=
  match s.live.find? (idIs entity_id) with
  | none => (.ok none, s)
  | some ent =>
    if uniqueViolation mc
        (replaceFirst (idIs entity_id) (applyUpd mc s.now data ent) s.live) then
      (.error (.DatabaseError ("Falha ao atualizar " ++ mc.name)), s.rollback)
    else
      (.ok (some (applyUpd mc s.now data ent)),
        { s with
          live := replaceFirst (idIs entity_id) (applyUpd mc s.now data ent) s.live })

/-- Remove the first row satisfying `p` (`session.delete` on one object). -/
def removeFirst (p : Entity → Bool) : List Entity → List Entity
  | [] => []
  | x :: xs => if p x then xs else x :: removeFirst p xs

/-- `Repository.delete`: load by id; `false` if absent, otherwise remove
the row and return `true`. -/
def delete (mc : ModelClass) (s : Session) (entity_id : Int) :
    Except DBError Bool × Session :=
  match s.live.find? (idIs entity_id) with
  | none => (.ok false, s)
  | some _ => (.ok true, { s with live := removeFirst (idIs entity_id) s.live })

/-- `Repository.delete_many`: bulk `DELETE` of every row matching the
filter set; returns the matching count taken just before the delete.
A non-mapped filter column raises and rolls back. -/
def delete_many (mc : ModelClass) (s : Session)
    (filter_dict : List (String × FilterVal)) : Except DBError Nat × Session :=
  if filter_dict.any (fun kv => !(mc.columns.contains kv.1)) then
    (.error (.DatabaseError ("Falha ao remover multiplos " ++ mc.name)), s.rollback)
  else
    (.ok (s.live.filter (rowMatches filter_dict)).length,
      { s with live := s.live.filter (fun e => !(rowMatches filter_dict e)) })

/-- The lookup filter built by `upsert`: `unique_fields` restricted to the
keys present in `data`, each as an equality condition. -/
def upsertFilters (unique_fields : List String) (data : List (String × Value)) :
    List (String × FilterVal) :=
  unique_fields.filterMap
    (fun f => (lookupKey data f).map (fun v => (f, FilterVal.scalar v)))

/-- `Repository.upsert`: look up existing rows through `get_by_filters`
on the restricted unique-field filter.  If any row matches, mutate the
first one in place (field overwrite under `hasattr`, timestamp refresh)
and report `created = false` — the flush raising on a unique-constraint
violation; otherwise `create` from `data` and report `created = true`.
Any failure rolls back and raises `DatabaseError`. -/
def upsert (mc : ModelClass) (s : Session) (unique_fields : List String)
    (data : List (String × Value)) : Except DBError (Entity × Bool) × Session :=
  match get_by_filters mc s (upsertFilters unique_fields data) none none none false with
  | .error _ => (.error (.DatabaseError ("Falha ao upsert " ++ mc.name)), s.rollback)
  | .ok existing =>
    match existing with
    | ent :: _ =>
      if uniqueViolation mc
          (replaceFirst (rowMatches (upsertFilters unique_fields data))
            (applyUpd mc s.now data ent) s.live) then
        (.error (.DatabaseError ("Falha ao upsert " ++ mc.name)), s.rollback)
      else
        (.ok (applyUpd mc s.now data ent, false),
          { s with
            live := replaceFirst (rowMatches (upsertFilters unique_fields data))
              (applyUpd mc s.now data ent) s.live })
    | [] =>
      match create mc s (.dict data) with
      | (.error _, s') =>
        (.error (.DatabaseError ("Falha ao upsert " ++ mc.name)), s'.rollback)
      | (.ok e, s') => (.ok (e, true), s')

/-- The `for item in items` loop of `bulk_upsert`: one `upsert` per item,
in list order, accumulating entities and the created/updated counters; an
exception mid-loop propagates with the remaining items unprocessed. -/
def bulkUpsertLoop (mc : ModelClass) (unique_fields : List String) :
    List (List (String × Value)) → Session →
    Except DBError (List Entity × Nat × Nat) × Session
  | [], s => (.ok ([], 0, 0), s)
  | item :: rest, s =>
    match upsert mc s unique_fields item with
    | (.error e, s') => (.error e, s')
    | (.ok r, s') =>
      match bulkUpsertLoop mc unique_fields rest s' with
      | (.error e, s'') => (.error e, s'')
      | (.ok (es, c, u), s'') =>
        (.ok (r.1 :: es, (if r.2 then c + 1 else c), (if r.2 then u else u + 1)), s'')

/-- `Repository.bulk_upsert`: sequential upserts; a failure on any item
rolls the unit of work back and raises `DatabaseError`. -/
def bulk_upsert (mc : ModelClass) (s : Session) (unique_fields : List String)
    (items : List (List (String × Value))) :
    Except DBError (List Entity × Nat × Nat) × Session :=
  match bulkUpsertLoop mc unique_fields items s with
  | (.error _, s') =>
    (.error (.DatabaseError ("Falha ao bulk upsert " ++ mc.name)), s'.rollback)
  | (.ok r, s') => (.ok r, s')

/-- Observer over the sequential upserts of `bulk_upsert`: the
created-flag of each item in list order, or `none` if some item fails. -/
def createdFlags (mc : ModelClass) (unique_fields : List String) :
    List (List (String × Value)) → Session → Option (List Bool)
  | [], _ => some []
  | item :: rest, s =>
    match upsert mc s unique_fields item with
    | (.ok r, s') => (createdFlags mc unique_fields rest s').map (fun bs => r.2 :: bs)
    | (.error _, _) => none

/-! Concrete model class, rows and session used by witnesses below:
a `Usuario`-like model (`username` unique) bound to a session holding
two committed-and-visible rows. -/

def mcU : ModelClass := ⟨"Usuario", ["username", "role"], ["username"]⟩

def eAlice : Entity :=
  ⟨[("id", .vInt 1), ("username", .vStr "alice"), ("role", .vStr "admin")]⟩

def eBob : Entity :=
  ⟨[("id", .vInt 2), ("username", .vStr "bob"), ("role", .vStr "operator")]⟩

def sAB : Session := ⟨[], [eAlice, eBob], 3, 100⟩

def sC : Session := ⟨[eAlice, eBob], [eAlice, eBob], 3, 100⟩

def sE : Session := ⟨[], [], 1, 50⟩

/-! ## Helper lemmas -/

theorem charListLe_total : ∀ as bs, charListLe as bs = true ∨ charListLe bs as = true := by
  intro as
  induction as with
  | nil => intro bs; left; rfl
  | cons a as ih =>
    intro bs
    cases bs with
    | nil => right; rfl
    | cons b bs =>
      by_cases h : a.val.toNat = b.val.toNat
      · rcases ih bs with h1 | h1
        · left; simp [charListLe, h, h1]
        · right; simp [charListLe, h.symm, h1]
      · rcases Nat.lt_or_ge a.val.toNat b.val.toNat with hlt | hge
        · left; simp [charListLe, h, hlt]
        · right
          have hne : ¬ b.val.toNat = a.val.toNat := fun hh => h hh.symm
          have hlt : b.val.toNat < a.val.toNat := lt_of_le_of_ne hge hne
          simp [charListLe, hne, hlt]

theorem charListLe_trans :
    ∀ as bs cs, charListLe as bs = true → charListLe bs cs = true →
      charListLe as cs = true := by
  intro as
  induction as with
  | nil => intro bs cs _ _; rfl
  | cons a as ih =>
    intro bs cs h1 h2
    cases bs with
    | nil => simp [charListLe] at h1
    | cons b bs =>
      cases cs with
      | nil => simp [charListLe] at h2
      | cons c cs =>
        by_cases hab : a.val.toNat = b.val.toNat <;>
          by_cases hbc : b.val.toNat = c.val.toNat
        · simp only [charListLe, if_pos hab] at h1
          simp only [charListLe, if_pos hbc] at h2
          simp [charListLe, hab.trans hbc, ih bs cs h1 h2]
        · simp only [charListLe, if_pos hab] at h1
          simp only [charListLe, if_neg hbc, decide_eq_true_eq] at h2
          have : a.val.toNat ≠ c.val.toNat := by rw [hab]; exact hbc
          simp [charListLe, this, hab ▸ h2]
        · simp only [charListLe, if_neg hab, decide_eq_true_eq] at h1
          simp only [charListLe, if_pos hbc] at h2
          have : a.val.toNat ≠ c.val.toNat := by rw [← hbc]; exact hab
          simp [charListLe, this, hbc ▸ h1]
        · simp only [charListLe, if_neg hab, decide_eq_true_eq] at h1
          simp only [charListLe, if_neg hbc, decide_eq_true_eq] at h2
          have hac : a.val.toNat < c.val.toNat := Nat.lt_trans h1 h2
          simp [charListLe, Nat.ne_of_lt hac, hac]

theorem valueLe_total : ∀ a b, valueLe a b = true ∨ valueLe b a = true := by
  intro a b
  cases a <;> cases b <;> simp [valueLe, strLe]
  · exact Int.le_total _ _
  · exact charListLe_total _ _

theorem valueLe_trans :
    ∀ a b c, valueLe a b = true → valueLe b c = true → valueLe a c = true := by
  intro a b c h1 h2
  cases a <;> cases b <;> cases c <;>
    simp [valueLe, strLe] at h1 h2 ⊢
  · exact le_trans h1 h2
  · exact charListLe_trans _ _ _ h1 h2

theorem keyLe_total : ∀ a b, keyLe a b = true ∨ keyLe b a = true := by
  intro a b
  cases a <;> cases b <;> simp [keyLe]
  exact valueLe_total _ _

theorem keyLe_trans :
    ∀ a b c, keyLe a b = true → keyLe b c = true → keyLe a c = true := by
  intro a b c h1 h2
  cases a <;> cases b <;> cases c <;> simp [keyLe] at h1 h2 ⊢
  exact valueLe_trans _ _ _ h1 h2

instance (k : String) (dsc : Bool) : IsTotal Entity (entLe k dsc) := by
  constructor
  intro a b
  unfold entLe attrLe
  cases dsc <;> simp <;> exact keyLe_total _ _

instance (k : String) (dsc : Bool) : IsTrans Entity (entLe k dsc) := by
  constructor
  intro a b c h1 h2
  unfold entLe attrLe at h1 h2 ⊢
  cases dsc <;> simp_all <;> exact keyLe_trans _ _ _ ‹_› ‹_›

theorem find?_eq_head_filter {α : Type} (p : α → Bool) (l : List α) :
    l.find? p = (l.filter p).head? := by
  induction l with
  | nil => rfl
  | cons x xs ih =>
    cases h : p x with
    | true => rw [List.find?_cons_of_pos _ h, List.filter_cons_of_pos h]; rfl
    | false =>
      rw [List.find?_cons_of_neg _ (by simp [h]), List.filter_cons_of_neg (by simp [h]), ih]

theorem find?_some_decomp {α : Type} (p : α → Bool) (l : List α) (x : α)
    (h : l.find? p = some x) :
    ∃ l1 l2, l = l1 ++ x :: l2 ∧ (∀ y ∈ l1, p y = false) ∧ p x = true := by
  induction l with
  | nil => simp at h
  | cons a as ih =>
    cases ha : p a with
    | true =>
      have h' : a = x := by
        rw [List.find?_cons, ha] at h
        exact Option.some.inj h
      subst h'
      exact ⟨[], as, rfl, by simp, ha⟩
    | false =>
      rw [List.find?_cons, ha] at h
      obtain ⟨l1, l2, he, hall, hx⟩ := ih h
      exact ⟨a :: l1, l2, by rw [he]; rfl,
        by intro y hy
           rcases List.mem_cons.mp hy with rfl | hy
           · exact ha
           · exact hall y hy, hx⟩

theorem replaceFirst_of_prefix (p : Entity → Bool) (e' : Entity) (l1 l2 : List Entity)
    (x : Entity) (hall : ∀ y ∈ l1, p y = false) (hx : p x = true) :
    replaceFirst p e' (l1 ++ x :: l2) = l1 ++ e' :: l2 := by
  induction l1 with
  | nil => simp [replaceFirst, hx]
  | cons a as ih =>
    have ha : p a = false := hall a (by simp)
    simp only [List.cons_append, replaceFirst, ha]
    simp [ih (fun y hy => hall y (List.mem_cons_of_mem a hy))]

theorem removeFirst_of_prefix (p : Entity → Bool) (l1 l2 : List Entity)
    (x : Entity) (hall : ∀ y ∈ l1, p y = false) (hx : p x = true) :
    removeFirst p (l1 ++ x :: l2) = l1 ++ l2 := by
  induction l1 with
  | nil => simp [removeFirst, hx]
  | cons a as ih =>
    have ha : p a = false := hall a (by simp)
    simp only [List.cons_append, removeFirst, ha]
    simp [ih (fun y hy => hall y (List.mem_cons_of_mem a hy))]

theorem lookupKey_cons (kv : String × Value) (rest : List (String × Value)) (k : String) :
    lookupKey (kv :: rest) k = if kv.1 = k then some kv.2 else lookupKey rest k := by
  by_cases h : kv.1 = k <;> simp [lookupKey, List.find?_cons, h]

theorem lookupKey_setAttrList_self (k : String) (v : Value) (l : List (String × Value)) :
    lookupKey (setAttrList k v l) k = some v := by
  induction l with
  | nil => simp [setAttrList, lookupKey]
  | cons kv rest ih =>
    by_cases h : kv.1 = k
    · simp [setAttrList, h, lookupKey_cons]
    · simp only [setAttrList, beq_iff_eq, if_neg h]
      rw [lookupKey_cons, if_neg h, ih]

theorem lookupKey_setAttrList_ne (k k' : String) (v : Value) (l : List (String × Value))
    (h : k' ≠ k) : lookupKey (setAttrList k v l) k' = lookupKey l k' := by
  induction l with
  | nil => simp [setAttrList, lookupKey, Ne.symm h]
  | cons kv rest ih =>
    by_cases hk : kv.1 = k
    · rw [setAttrList, if_pos (by simpa using hk), lookupKey_cons, lookupKey_cons,
        if_neg (by simpa using Ne.symm h), if_neg (by rw [hk]; exact Ne.symm h)]
    · rw [setAttrList, if_neg (by simpa using hk), lookupKey_cons, lookupKey_cons, ih]

theorem getAttr_setAttr_self (e : Entity) (k : String) (v : Value) :
    getAttr (setAttr e k v) k = some v :=
  lookupKey_setAttrList_self k v e.attrs

theorem getAttr_setAttr_ne (e : Entity) (k k' : String) (v : Value) (h : k' ≠ k) :
    getAttr (setAttr e k v) k' = getAttr e k' :=
  lookupKey_setAttrList_ne k k' v e.attrs h

theorem getAttr_defaultCol_isSome (k : String) (v : Value) (e : Entity) :
    (getAttr (defaultCol k v e) k).isSome := by
  unfold defaultCol
  cases h : getAttr e k with
  | none => simp [getAttr_setAttr_self]
  | some w => simp [h]

theorem getAttr_defaultCol_ne (k k' : String) (v : Value) (e : Entity) (h : k' ≠ k) :
    getAttr (defaultCol k v e) k' = getAttr e k' := by
  unfold defaultCol
  cases getAttr e k with
  | none => exact getAttr_setAttr_ne e k k' v h
  | some w => rfl

theorem getAttr_defaultCol_some (k k' : String) (v w : Value) (e : Entity)
    (h : getAttr e k' = some w) : getAttr (defaultCol k v e) k' = some w := by
  by_cases hk : k' = k
  · subst hk
    unfold defaultCol
    rw [h]
    exact h
  · rw [getAttr_defaultCol_ne k k' v e hk, h]

theorem getAttr_defaultCol_isSome_preserved (k k' : String) (v : Value) (e : Entity)
    (h : (getAttr e k').isSome) : (getAttr (defaultCol k v e) k').isSome := by
  obtain ⟨w, hw⟩ := Option.isSome_iff_exists.mp h
  rw [getAttr_defaultCol_some k k' v w e hw]
  rfl

theorem getAttr_applyDefaults_some (nid now : Int) (e : Entity) (k : String) (w : Value)
    (h : getAttr e k = some w) : getAttr (applyDefaults nid now e).1 k = some w := by
  unfold applyDefaults
  cases hid : getAttr e "id" with
  | none =>
    have hk : k ≠ "id" := fun hh => by rw [hh, hid] at h; cases h
    have h1 : getAttr (setAttr e "id" (.vInt nid)) k = some w := by
      rw [getAttr_setAttr_ne e "id" k _ hk, h]
    simp only []
    exact getAttr_defaultCol_some _ _ _ _ _ (getAttr_defaultCol_some _ _ _ _ _ h1)
  | some u =>
    simp only []
    exact getAttr_defaultCol_some _ _ _ _ _ (getAttr_defaultCol_some _ _ _ _ _ h)

theorem applyDefaults_id_isSome (nid now : Int) (e : Entity) :
    (getAttr (applyDefaults nid now e).1 "id").isSome := by
  unfold applyDefaults
  cases hid : getAttr e "id" with
  | none =>
    have h1 : getAttr (setAttr e "id" (.vInt nid)) "id" = some (.vInt nid) :=
      getAttr_setAttr_self e "id" _
    simp only []
    rw [getAttr_defaultCol_some _ _ _ _ _ (getAttr_defaultCol_some _ _ _ _ _ h1)]
    rfl
  | some u =>
    simp only []
    rw [getAttr_defaultCol_some _ _ _ _ _ (getAttr_defaultCol_some _ _ _ _ _ hid)]
    rfl

theorem applyDefaults_created_isSome (nid now : Int) (e : Entity) :
    (getAttr (applyDefaults nid now e).1 "created_at").isSome := by
  unfold applyDefaults
  cases hid : getAttr e "id" with
  | none =>
    simp only []
    exact getAttr_defaultCol_isSome_preserved _ _ _ _ (getAttr_defaultCol_isSome _ _ _)
  | some u =>
    simp only []
    exact getAttr_defaultCol_isSome_preserved _ _ _ _ (getAttr_defaultCol_isSome _ _ _)

theorem applyDefaults_updated_isSome (nid now : Int) (e : Entity) :
    (getAttr (applyDefaults nid now e).1 "updated_at").isSome := by
  unfold applyDefaults
  cases hid : getAttr e "id" with
  | none => exact getAttr_defaultCol_isSome _ _ _
  | some u => exact getAttr_defaultCol_isSome _ _ _

theorem lookupKey_eq_none_of_not_mem (data : List (String × Value)) (k : String)
    (h : k ∉ data.map Prod.fst) : lookupKey data k = none := by
  unfold lookupKey
  rw [List.find?_eq_none.mpr]
  · rfl
  · intro kv hkv
    simp only [beq_iff_eq]
    intro he
    exact h (List.mem_map.mpr ⟨kv, hkv, he⟩)

theorem getAttr_applyData_none (mc : ModelClass) (e : Entity)
    (data : List (String × Value)) (k : String) (h : lookupKey data k = none) :
    getAttr (applyData mc e data) k = getAttr e k := by
  induction data generalizing e with
  | nil => rfl
  | cons kv rest ih =>
    rw [lookupKey_cons] at h
    by_cases hk : kv.1 = k
    · rw [if_pos hk] at h; cases h
    · rw [if_neg hk] at h
      unfold applyData
      rw [ih _ h]
      by_cases hc : mc.columns.contains kv.1
      · simp only [hc, if_true]
        exact getAttr_setAttr_ne e kv.1 k kv.2 (fun hh => hk hh.symm)
      · rw [if_neg hc]

theorem getAttr_applyData_not_col (mc : ModelClass) (e : Entity)
    (data : List (String × Value)) (k : String) (h : mc.columns.contains k = false) :
    getAttr (applyData mc e data) k = getAttr e k := by
  induction data generalizing e with
  | nil => rfl
  | cons kv rest ih =>
    unfold applyData
    rw [ih]
    by_cases hk : kv.1 = k
    · rw [hk, h]
      simp
    · by_cases hc : mc.columns.contains kv.1
      · simp only [hc, if_true]
        exact getAttr_setAttr_ne e kv.1 k kv.2 (fun hh => hk hh.symm)
      · rw [if_neg hc]

theorem getAttr_applyData_some (mc : ModelClass) (e : Entity)
    (data : List (String × Value)) (k : String) (v : Value)
    (hnd : (data.map Prod.fst).Nodup) (hl : lookupKey data k = some v)
    (hc : mc.columns.contains k = true) :
    getAttr (applyData mc e data) k = some v := by
  induction data generalizing e with
  | nil => cases hl
  | cons kv rest ih =>
    rw [lookupKey_cons] at hl
    have hnd' : (rest.map Prod.fst).Nodup := (List.nodup_cons.mp hnd).2
    by_cases hk : kv.1 = k
    · rw [if_pos hk] at hl
      have hrest : lookupKey rest k = none := by
        apply lookupKey_eq_none_of_not_mem
        rw [← hk]
        exact (List.nodup_cons.mp hnd).1
      unfold applyData
      rw [getAttr_applyData_none mc _ rest k hrest]
      rw [hk, hc]
      simp only [if_true]
      rw [getAttr_setAttr_self, hl]
    · rw [if_neg hk] at hl
      unfold applyData
      exact ih _ hnd' hl

theorem getAttr_applyUpd_updated (mc : ModelClass) (now : Int)
    (data : List (String × Value)) (e : Entity) :
    getAttr (applyUpd mc now data e) "updated_at" = some (.vInt now) :=
  getAttr_setAttr_self _ _ _

theorem getAttr_applyUpd_ne (mc : ModelClass) (now : Int)
    (data : List (String × Value)) (e : Entity) (k : String) (h : k ≠ "updated_at") :
    getAttr (applyUpd mc now data e) k = getAttr (applyData mc e data) k :=
  getAttr_setAttr_ne _ _ _ _ h

theorem applyPage_eq (limit offset : Option Nat) (rows : List Entity) :
    applyPage limit offset rows =
      (rows.drop (offset.getD 0)).take
        (if limit.getD 0 = 0 then rows.length else limit.getD 0) := by
  have htake : ∀ l : List Entity, l.take rows.length = l ∨ l.length ≤ rows.length →
      l.take rows.length = l := fun l h => by
    rcases h with h | h
    · exact h
    · exact List.take_of_length_le h
  rcases offset with _ | o
  · rcases limit with _ | l
    · simp [applyPage]
    · by_cases hl : l = 0 <;> simp [applyPage, hl]
  · rcases limit with _ | l
    · by_cases ho : o = 0 <;>
        simp [applyPage, ho, List.take_of_length_le, List.length_drop, Nat.sub_le]
    · by_cases ho : o = 0 <;> by_cases hl : l = 0 <;>
        simp [applyPage, ho, hl, List.take_of_length_le, List.length_drop, Nat.sub_le]

theorem get_by_filters_valid_no_order (mc : ModelClass) (s : Session)
    (filters : List (String × FilterVal)) (limit offset : Option Nat) (dsc : Bool)
    (hf : ∀ kv ∈ filters, mc.columns.contains kv.1 = true) :
    get_by_filters mc s filters none limit offset dsc =
      .ok (applyPage limit offset (s.live.filter (rowMatches filters))) := by
  unfold get_by_filters
  have hcond : filters.any (fun kv => !(mc.columns.contains kv.1)) = false := by
    rw [List.any_eq_false]
    intro kv hkv
    rw [hf kv hkv]
    simp
  rw [if_neg (by rw [hcond]; simp)]

theorem get_by_filters_valid_order (mc : ModelClass) (s : Session)
    (filters : List (String × FilterVal)) (ob : String)
    (limit offset : Option Nat) (dsc : Bool)
    (hf : ∀ kv ∈ filters, mc.columns.contains kv.1 = true)
    (hob : mc.columns.contains ob = true) :
    get_by_filters mc s filters (some ob) limit offset dsc =
      .ok (applyPage limit offset
        ((s.live.filter (rowMatches filters)).insertionSort (entLe ob dsc))) := by
  unfold get_by_filters
  have hcond : filters.any (fun kv => !(mc.columns.contains kv.1)) = false := by
    rw [List.any_eq_false]
    intro kv hkv
    rw [hf kv hkv]
    simp
  rw [if_neg (by rw [hcond]; simp)]
  simp only [hob, if_true]

theorem get_by_filters_bad_order (mc : ModelClass) (s : Session)
    (filters : List (String × FilterVal)) (ob : String)
    (limit offset : Option Nat) (dsc : Bool)
    (hob : mc.columns.contains ob = false) :
    get_by_filters mc s filters (some ob) limit offset dsc =
      .error (.DatabaseError ("Falha ao filtrar " ++ mc.name)) := by
  unfold get_by_filters
  by_cases hcond : filters.any (fun kv => !(mc.columns.contains kv.1)) = true
  · rw [if_pos hcond]
  · rw [if_neg hcond]
    simp only [hob]
    rfl

theorem create_committed (mc : ModelClass) (s : Session) (a : CreateArg) :
    (create mc s a).2.committed = s.committed := by
  unfold create
  split
  · rfl
  · split <;> rfl

theorem create_err_rollback (mc : ModelClass) (s : Session) (a : CreateArg)
    (err : DBError) (s' : Session) (h : create mc s a = (.error err, s')) :
    s' = s.rollback := by
  unfold create at h
  split at h
  · exact (congrArg Prod.snd h).symm
  · split at h
    · exact (congrArg Prod.snd h).symm
    · exact absurd (congrArg Prod.fst h) (by simp)

theorem create_ok_state (mc : ModelClass) (s : Session) (a : CreateArg)
    (e : Entity) (s' : Session) (h : create mc s a = (.ok e, s')) :
    s'.live = s.live ++ [e] ∧ s'.committed = s.committed := by
  unfold create at h
  split at h
  · exact absurd (congrArg Prod.fst h) (by simp)
  · split at h
    · exact absurd (congrArg Prod.fst h) (by simp)
    · have h1 := congrArg Prod.fst h
      have h2 := congrArg Prod.snd h
      simp only at h1 h2
      rw [← h2]
      constructor
      · rw [Except.ok.injEq] at h1
        rw [← h1]
      · rfl

theorem bulk_create_err_rollback (mc : ModelClass) (s : Session)
    (items : List (List (String × Value))) (err : DBError) (s' : Session)
    (h : bulk_create mc s items = (.error err, s')) : s' = s.rollback := by
  unfold bulk_create at h
  split at h
  · exact (congrArg Prod.snd h).symm
  · split at h
    · exact (congrArg Prod.snd h).symm
    · exact absurd (congrArg Prod.fst h) (by simp)

theorem flushNew_length (nid now : Int) (l : List Entity) :
    (flushNew nid now l).1.length = l.length := by
  induction l generalizing nid with
  | nil => rfl
  | cons e rest ih => simp [flushNew, ih]

theorem mkEntities_length (mc : ModelClass) (items : List (List (String × Value)))
    (es : List Entity) (h : mkEntities mc items = .ok es) : es.length = items.length := by
  induction items generalizing es with
  | nil =>
    unfold mkEntities at h
    rw [Except.ok.injEq] at h
    rw [← h]
    rfl
  | cons d rest ih =>
    unfold mkEntities at h
    split at h
    · cases h
    · cases hrest : mkEntities mc rest with
      | error e => rw [hrest] at h; cases h
      | ok es0 =>
        rw [hrest] at h
        simp only [Except.map] at h
        rw [Except.ok.injEq] at h
        rw [← h]
        simp [ih es0 hrest]

theorem rollback_rollback (s : Session) : s.rollback.rollback = s.rollback := rfl

theorem applyPage_none_none (rows : List Entity) : applyPage none none rows = rows := rfl

theorem update_err_rollback (mc : ModelClass) (s : Session) (eid : Int)
    (d : List (String × Value)) (err : DBError) (s' : Session)
    (h : update mc s eid d = (.error err, s')) : s' = s.rollback := by
  unfold update at h
  split at h
  · exact absurd (congrArg Prod.fst h) (by simp)
  · split at h
    · exact (congrArg Prod.snd h).symm
    · exact absurd (congrArg Prod.fst h) (by simp)

theorem update_committed (mc : ModelClass) (s : Session) (eid : Int)
    (d : List (String × Value)) : (update mc s eid d).2.committed = s.committed := by
  unfold update
  split
  · rfl
  · split <;> rfl

theorem delete_no_error (mc : ModelClass) (s : Session) (eid : Int)
    (err : DBError) (s' : Session) (h : delete mc s eid = (.error err, s')) : False := by
  unfold delete at h
  split at h <;> exact absurd (congrArg Prod.fst h) (by simp)

theorem delete_committed (mc : ModelClass) (s : Session) (eid : Int) :
    (delete mc s eid).2.committed = s.committed := by
  unfold delete
  split <;> rfl

theorem delete_many_err_rollback (mc : ModelClass) (s : Session)
    (fd : List (String × FilterVal)) (err : DBError) (s' : Session)
    (h : delete_many mc s fd = (.error err, s')) : s' = s.rollback := by
  unfold delete_many at h
  split at h
  · exact (congrArg Prod.snd h).symm
  · exact absurd (congrArg Prod.fst h) (by simp)

theorem delete_many_committed (mc : ModelClass) (s : Session)
    (fd : List (String × FilterVal)) : (delete_many mc s fd).2.committed = s.committed := by
  unfold delete_many
  split <;> rfl

theorem upsert_committed (mc : ModelClass) (s : Session) (uf : List String)
    (d : List (String × Value)) : (upsert mc s uf d).2.committed = s.committed := by
  unfold upsert
  split
  · rfl
  · split
    · split <;> rfl
    · split
      · rename_i heq
        have hc := create_committed mc s (.dict d)
        rw [heq] at hc
        exact hc
      · rename_i heq
        have hc := create_committed mc s (.dict d)
        rw [heq] at hc
        exact hc

theorem upsert_err_rollback (mc : ModelClass) (s : Session) (uf : List String)
    (d : List (String × Value)) (err : DBError) (s' : Session)
    (h : upsert mc s uf d = (.error err, s')) : s' = s.rollback := by
  unfold upsert at h
  split at h
  · exact (congrArg Prod.snd h).symm
  · split at h
    · split at h
      · exact (congrArg Prod.snd h).symm
      · exact absurd (congrArg Prod.fst h) (by simp)
    · split at h
      · rename_i heq
        have hr := create_err_rollback mc s (.dict d) _ _ heq
        have h2 := (congrArg Prod.snd h).symm
        simp only at h2
        rw [h2, hr, rollback_rollback]
      · exact absurd (congrArg Prod.fst h) (by simp)

theorem upsert_found_ok (mc : ModelClass) (s : Session) (uf : List String)
    (d : List (String × Value)) (ent : Entity)
    (hvalid : ∀ kv ∈ upsertFilters uf d, mc.columns.contains kv.1 = true)
    (hfind : s.live.find? (rowMatches (upsertFilters uf d)) = some ent)
    (hok : uniqueViolation mc (replaceFirst (rowMatches (upsertFilters uf d))
      (applyUpd mc s.now d ent) s.live) = false) :
    upsert mc s uf d =
      (.ok (applyUpd mc s.now d ent, false),
        { s with
          live := replaceFirst (rowMatches (upsertFilters uf d))
            (applyUpd mc s.now d ent) s.live }) := by
  unfold upsert
  rw [get_by_filters_valid_no_order mc s _ none none false hvalid, applyPage_none_none]
  rw [find?_eq_head_filter] at hfind
  cases hfl : s.live.filter (rowMatches (upsertFilters uf d)) with
  | nil => rw [hfl] at hfind; cases hfind
  | cons a t =>
    rw [hfl] at hfind
    have ha : ent = a := (Option.some.inj hfind).symm
    subst ha
    show (if uniqueViolation mc (replaceFirst (rowMatches (upsertFilters uf d))
        (applyUpd mc s.now d ent) s.live) then
        ((.error (.DatabaseError ("Falha ao upsert " ++ mc.name)), s.rollback) :
          Except DBError (Entity × Bool) × Session)
      else
        (.ok (applyUpd mc s.now d ent, false),
          { s with
            live := replaceFirst (rowMatches (upsertFilters uf d))
              (applyUpd mc s.now d ent) s.live })) = _
    rw [hok]
    rfl

theorem upsert_found_err (mc : ModelClass) (s : Session) (uf : List String)
    (d : List (String × Value)) (ent : Entity)
    (hvalid : ∀ kv ∈ upsertFilters uf d, mc.columns.contains kv.1 = true)
    (hfind : s.live.find? (rowMatches (upsertFilters uf d)) = some ent)
    (hbad : uniqueViolation mc (replaceFirst (rowMatches (upsertFilters uf d))
      (applyUpd mc s.now d ent) s.live) = true) :
    upsert mc s uf d =
      (.error (.DatabaseError ("Falha ao upsert " ++ mc.name)), s.rollback) := by
  unfold upsert
  rw [get_by_filters_valid_no_order mc s _ none none false hvalid, applyPage_none_none]
  rw [find?_eq_head_filter] at hfind
  cases hfl : s.live.filter (rowMatches (upsertFilters uf d)) with
  | nil => rw [hfl] at hfind; cases hfind
  | cons a t =>
    rw [hfl] at hfind
    have ha : ent = a := (Option.some.inj hfind).symm
    subst ha
    show (if uniqueViolation mc (replaceFirst (rowMatches (upsertFilters uf d))
        (applyUpd mc s.now d ent) s.live) then
        ((.error (.DatabaseError ("Falha ao upsert " ++ mc.name)), s.rollback) :
          Except DBError (Entity × Bool) × Session)
      else
        (.ok (applyUpd mc s.now d ent, false),
          { s with
            live := replaceFirst (rowMatches (upsertFilters uf d))
              (applyUpd mc s.now d ent) s.live })) = _
    rw [hbad]
    rfl

theorem upsert_notfound (mc : ModelClass) (s : Session) (uf : List String)
    (d : List (String × Value)) (e : Entity) (s' : Session)
    (hvalid : ∀ kv ∈ upsertFilters uf d, mc.columns.contains kv.1 = true)
    (hfind : s.live.find? (rowMatches (upsertFilters uf d)) = none)
    (hcr : create mc s (.dict d) = (.ok e, s')) :
    upsert mc s uf d = (.ok (e, true), s') := by
  unfold upsert
  rw [get_by_filters_valid_no_order mc s _ none none false hvalid, applyPage_none_none]
  rw [find?_eq_head_filter] at hfind
  cases hfl : s.live.filter (rowMatches (upsertFilters uf d)) with
  | nil =>
    rw [hcr]
  | cons a t => rw [hfl] at hfind; cases hfind

theorem bulkUpsertLoop_committed (mc : ModelClass) (uf : List String) :
    ∀ (items : List (List (String × Value))) (s : Session),
      (bulkUpsertLoop mc uf items s).2.committed = s.committed := by
  intro items
  induction items with
  | nil => intro s; rfl
  | cons item rest ih =>
    intro s
    unfold bulkUpsertLoop
    split
    · rename_i e s' heq
      have hc := upsert_committed mc s uf item
      rw [heq] at hc
      exact hc
    · rename_i r s' heq
      have hc : s'.committed = s.committed := by
        have hx := upsert_committed mc s uf item
        rw [heq] at hx
        exact hx
      split
      · rename_i e s'' heq2
        have h2 : s''.committed = s'.committed := by
          have hx := ih s'
          rw [heq2] at hx
          exact hx
        exact h2.trans hc
      · rename_i es c u s'' heq2
        have h2 : s''.committed = s'.committed := by
          have hx := ih s'
          rw [heq2] at hx
          exact hx
        exact h2.trans hc

theorem bulkUpsertLoop_err (mc : ModelClass) (uf : List String) :
    ∀ (items : List (List (String × Value))) (s : Session) (err : DBError) (s' : Session),
      bulkUpsertLoop mc uf items s = (.error err, s') →
      s'.live = s.committed ∧ s'.committed = s.committed := by
  intro items
  induction items with
  | nil =>
    intro s err s' h
    exact absurd (congrArg Prod.fst h) (by simp [bulkUpsertLoop])
  | cons item rest ih =>
    intro s err s' h
    unfold bulkUpsertLoop at h
    split at h
    · rename_i e s1 heq
      have hr := upsert_err_rollback mc s uf item _ _ heq
      have h2 := (congrArg Prod.snd h).symm
      simp only at h2
      rw [h2, hr]
      exact ⟨rfl, rfl⟩
    · rename_i r s1 heq
      have hc := upsert_committed mc s uf item
      rw [heq] at hc
      split at h
      · rename_i e s2 heq2
        have h2 := (congrArg Prod.snd h).symm
        simp only at h2
        obtain ⟨hl, hcc⟩ := ih s1 _ _ heq2
        rw [h2]
        rw [hc] at hl hcc
        exact ⟨hl, hcc⟩
      · exact absurd (congrArg Prod.fst h) (by simp)

theorem bulkUpsertLoop_ok_stats (mc : ModelClass) (uf : List String) :
    ∀ (items : List (List (String × Value))) (s : Session) (es : List Entity)
      (c u : Nat) (s' : Session),
      bulkUpsertLoop mc uf items s = (.ok (es, c, u), s') →
      es.length = items.length ∧ c + u = items.length ∧
        ∃ bs, createdFlags mc uf items s = some bs ∧
          c = bs.count true ∧ u = bs.count false := by
  intro items
  induction items with
  | nil =>
    intro s es c u s' h
    have h1 := congrArg Prod.fst h
    simp only [bulkUpsertLoop, Except.ok.injEq, Prod.mk.injEq] at h1
    obtain ⟨he, hc, hu⟩ := h1
    rw [← he, ← hc, ← hu]
    exact ⟨rfl, rfl, [], rfl, rfl, rfl⟩
  | cons item rest ih =>
    intro s es c u s' h
    unfold bulkUpsertLoop at h
    split at h
    · exact absurd (congrArg Prod.fst h) (by simp)
    · rename_i r s1 heq
      split at h
      · exact absurd (congrArg Prod.fst h) (by simp)
      · rename_i es0 c0 u0 s2 heq2
        have h1 := congrArg Prod.fst h
        simp only [Except.ok.injEq, Prod.mk.injEq] at h1
        obtain ⟨he, hc, hu⟩ := h1
        obtain ⟨hlen, hsum, bs0, hbs, hct, hcf⟩ := ih s1 es0 c0 u0 s2 heq2
        rw [← he, ← hc, ← hu]
        refine ⟨by simp [hlen], ?_, r.2 :: bs0, ?_, ?_, ?_⟩
        · cases r.2 <;> simp <;> omega
        · unfold createdFlags
          rw [heq]
          show (createdFlags mc uf rest s1).map (fun bs => r.2 :: bs) = some (r.2 :: bs0)
          rw [hbs]
          rfl
        · cases hr2 : r.2 <;> simp [List.count_cons, hct, hcf, hr2]
        · cases hr2 : r.2 <;> simp [List.count_cons, hct, hcf, hr2]

theorem bulk_create_ok_state (mc : ModelClass) (s : Session)
    (items : List (List (String × Value))) (es : List Entity) (s' : Session)
    (h : bulk_create mc s items = (.ok es, s')) :
    s'.live = s.live ++ es ∧ s'.committed = s.committed ∧ es.length = items.length := by
  unfold bulk_create at h
  split at h
  · exact absurd (congrArg Prod.fst h) (by simp)
  · rename_i es0 heq
    split at h
    · exact absurd (congrArg Prod.fst h) (by simp)
    · have h1 := congrArg Prod.fst h
      have h2 := congrArg Prod.snd h
      simp only at h1 h2
      rw [Except.ok.injEq] at h1
      rw [← h2, ← h1]
      refine ⟨rfl, rfl, ?_⟩
      rw [flushNew_length, mkEntities_length mc items es0 heq]

theorem bulkUpsertLoop_cons_ok (mc : ModelClass) (uf : List String)
    (item : List (String × Value)) (rest : List (List (String × Value)))
    (s : Session) (r : Entity × Bool) (s1 : Session)
    (hup : upsert mc s uf item = (.ok r, s1)) :
    bulkUpsertLoop mc uf (item :: rest) s =
      (match bulkUpsertLoop mc uf rest s1 with
       | (.error e, s'') => (.error e, s'')
       | (.ok (es, c, u), s'') =>
         (.ok (r.1 :: es, if r.2 then c + 1 else c, if r.2 then u else u + 1), s'')) := by
  conv_lhs => unfold bulkUpsertLoop
  rw [hup]

theorem bulkUpsertLoop_cons_err (mc : ModelClass) (uf : List String)
    (item : List (String × Value)) (rest : List (List (String × Value)))
    (s : Session) (err : DBError) (s1 : Session)
    (hup : upsert mc s uf item = (.error err, s1)) :
    bulkUpsertLoop mc uf (item :: rest) s = (.error err, s1) := by
  conv_lhs => unfold bulkUpsertLoop
  rw [hup]

theorem bulk_upsert_err_live (mc : ModelClass) (s : Session) (uf : List String)
    (items : List (List (String × Value))) (err : DBError) (s' : Session)
    (h : bulk_upsert mc s uf items = (.error err, s')) :
    s'.live = s.committed ∧ s'.committed = s.committed := by
  unfold bulk_upsert at h
  split at h
  · rename_i e s'' heq
    have h2 : s' = s''.rollback := (congrArg Prod.snd h).symm
    obtain ⟨hl, hcc⟩ := bulkUpsertLoop_err mc uf items s _ _ heq
    rw [h2]
    exact ⟨hcc, hcc⟩
  · exact absurd (congrArg Prod.fst h) (by simp)

/-! ## Claims -/

/-- C1 counterexample: with `uniqueFields = ["role"]` and a `data` that
also sets `username` to the value held by another row, the first matching
row is mutated in place but the flush hits the unique constraint on
`username`, so `upsert` rolls the unit of work back and raises
`DatabaseError` instead of returning `(entity, created=false)` as the
claim states for every matching call. -/
theorem claim_C1_counterexample :
    sAB.live.find? (rowMatches (upsertFilters ["role"]
      [("role", Value.vStr "admin"), ("username", Value.vStr "bob")])) = some eAlice ∧
    upsert mcU sAB ["role"]
      [("role", Value.vStr "admin"), ("username", Value.vStr "bob")] =
      (.error (.DatabaseError ("Falha ao upsert " ++ mcU.name)), sAB.rollback) :=
  ⟨by decide, by decide⟩

/-- C1 (amended): `upsert(uniqueFields, data)` builds its lookup filter as
the restriction of `uniqueFields` to keys present in `data`; the
candidates are exactly `getByFilters` of that filter (the visible rows
matching it, in store order); when at least one row matches and the
flushed in-place update violates no unique constraint, the first match is
updated in place (every key of `data` that is a mapped column is
overwritten, unknown keys are skipped, other columns keep their value,
the update timestamp is refreshed) and `(entity, created=false)` is
returned, the store changing only at that row; when the flushed update
violates a unique constraint, the unit of work is rolled back and
`DatabaseError` is raised; when no row matches, the entity created by
`create` from `data` is returned with `created=true`. -/
theorem claim_C1_upsert (mc : ModelClass) (s : Session) (uf : List String)
    (d : List (String × Value))
    (hnd : (d.map Prod.fst).Nodup)
    (hvalid : ∀ kv ∈ upsertFilters uf d, mc.columns.contains kv.1 = true) :
    (upsertFilters uf d =
      uf.filterMap (fun f => (lookupKey d f).map (fun v => (f, FilterVal.scalar v)))) ∧
    (get_by_filters mc s (upsertFilters uf d) none none none false =
      .ok (s.live.filter (rowMatches (upsertFilters uf d)))) ∧
    (s.live.find? (rowMatches (upsertFilters uf d)) =
      (s.live.filter (rowMatches (upsertFilters uf d))).head?) ∧
    (∀ ent, s.live.find? (rowMatches (upsertFilters uf d)) = some ent →
      uniqueViolation mc (replaceFirst (rowMatches (upsertFilters uf d))
        (applyUpd mc s.now d ent) s.live) = false →
      ∃ e', upsert mc s uf d =
          (.ok (e', false),
            { s with live := replaceFirst (rowMatches (upsertFilters uf d)) e' s.live }) ∧
        getAttr e' "updated_at" = some (.vInt s.now) ∧
        (∀ k v, k ≠ "updated_at" → lookupKey d k = some v →
          mc.columns.contains k = true → getAttr e' k = some v) ∧
        (∀ k, k ≠ "updated_at" → lookupKey d k = none → getAttr e' k = getAttr ent k) ∧
        (∀ k, k ≠ "updated_at" → mc.columns.contains k = false →
          getAttr e' k = getAttr ent k)) ∧
    (∀ ent, s.live.find? (rowMatches (upsertFilters uf d)) = some ent →
      uniqueViolation mc (replaceFirst (rowMatches (upsertFilters uf d))
        (applyUpd mc s.now d ent) s.live) = true →
      upsert mc s uf d =
        (.error (.DatabaseError ("Falha ao upsert " ++ mc.name)), s.rollback)) ∧
    (s.live.find? (rowMatches (upsertFilters uf d)) = none →
      ∀ e' s', create mc s (.dict d) = (.ok e', s') →
        upsert mc s uf d = (.ok (e', true), s')) := by
  refine ⟨rfl, ?_, find?_eq_head_filter _ _, ?_, ?_, ?_⟩
  · rw [get_by_filters_valid_no_order mc s _ none none false hvalid, applyPage_none_none]
  · intro ent hfind hok
    refine ⟨applyUpd mc s.now d ent,
      upsert_found_ok mc s uf d ent hvalid hfind hok, ?_, ?_, ?_, ?_⟩
    · exact getAttr_applyUpd_updated mc s.now d ent
    · intro k v hk hl hc
      rw [getAttr_applyUpd_ne mc s.now d ent k hk]
      exact getAttr_applyData_some mc ent d k v hnd hl hc
    · intro k hk hl
      rw [getAttr_applyUpd_ne mc s.now d ent k hk]
      exact getAttr_applyData_none mc ent d k hl
    · intro k hk hc
      rw [getAttr_applyUpd_ne mc s.now d ent k hk]
      exact getAttr_applyData_not_col mc ent d k hc
  · intro ent hfind hbad
    exact upsert_found_err mc s uf d ent hvalid hfind hbad
  · intro hfind e' s' hcr
    exact upsert_notfound mc s uf d e' s' hvalid hfind hcr

theorem claim_C1_witness :
    get_by_filters mcU sAB (upsertFilters ["username"] [("username", Value.vStr "alice")])
      none none none false =
      .ok (sAB.live.filter
        (rowMatches (upsertFilters ["username"] [("username", Value.vStr "alice")]))) :=
  (claim_C1_upsert mcU sAB ["username"] [("username", Value.vStr "alice")]
    (by decide) (by decide)).2.1

/-- C2: `bulkCreate` is atomic: a successful batch appends exactly the
batch entities to the transaction view in one flush, while any failure
rolls the unit of work back to the committed state (no batch entity
durably visible); moreover every mutating operation that fails leaves the
session rolled back to its committed state when raising `DatabaseError`. -/
theorem claim_C2_atomicity (mc : ModelClass) (s : Session) :
    (∀ items es s', bulk_create mc s items = (.ok es, s') →
      s'.live = s.live ++ es ∧ s'.committed = s.committed ∧ es.length = items.length) ∧
    (∀ items err s', bulk_create mc s items = (.error err, s') →
      s'.live = s.committed ∧ s'.committed = s.committed ∧
        ∀ e ∈ s'.live, e ∈ s.committed) ∧
    (∀ a err s', create mc s a = (.error err, s') → s'.live = s.committed) ∧
    (∀ eid d err s', update mc s eid d = (.error err, s') → s'.live = s.committed) ∧
    (∀ eid err s', delete mc s eid = (.error err, s') → s'.live = s.committed) ∧
    (∀ fd err s', delete_many mc s fd = (.error err, s') → s'.live = s.committed) ∧
    (∀ uf d err s', upsert mc s uf d = (.error err, s') → s'.live = s.committed) ∧
    (∀ uf items err s', bulk_upsert mc s uf items = (.error err, s') →
      s'.live = s.committed) := by
  refine ⟨?_, ?_, ?_, ?_, ?_, ?_, ?_, ?_⟩
  · intro items es s' h
    exact bulk_create_ok_state mc s items es s' h
  · intro items err s' h
    have hr := bulk_create_err_rollback mc s items err s' h
    rw [hr]
    exact ⟨rfl, rfl, fun e he => he⟩
  · intro a err s' h
    rw [create_err_rollback mc s a err s' h]
    rfl
  · intro eid d err s' h
    rw [update_err_rollback mc s eid d err s' h]
    rfl
  · intro eid err s' h
    exact absurd h (fun hh => delete_no_error mc s eid err s' hh)
  · intro fd err s' h
    rw [delete_many_err_rollback mc s fd err s' h]
    rfl
  · intro uf d err s' h
    rw [upsert_err_rollback mc s uf d err s' h]
    rfl
  · intro uf items err s' h
    exact (bulk_upsert_err_live mc s uf items err s' h).1

theorem claim_C2_witness : sAB.rollback.live = sAB.committed :=
  (claim_C2_atomicity mcU sAB).2.2.2.1 1 [("username", Value.vStr "bob")]
    (.DatabaseError ("Falha ao atualizar " ++ mcU.name)) sAB.rollback (by decide)

/-- C3: `bulkUpsert` upserts the items sequentially in list order: on
success it returns as many entities as items together with counters
counting, per item in order, whether that item's upsert created (no match
at its turn) or updated (a match at its turn), the two counters summing to
the item count; a successful head upsert continues with the tail on the
resulting session; the first failing item aborts the loop, rolls the unit
of work back and raises `DatabaseError`. -/
theorem claim_C3_bulk_upsert (mc : ModelClass) (s : Session) (uf : List String)
    (items : List (List (String × Value))) :
    (∀ es c u s', bulk_upsert mc s uf items = (.ok (es, c, u), s') →
      es.length = items.length ∧ c + u = items.length ∧
        ∃ bs, createdFlags mc uf items s = some bs ∧
          c = bs.count true ∧ u = bs.count false) ∧
    (∀ item rest r s1 es c u s2, items = item :: rest →
      upsert mc s uf item = (.ok r, s1) →
      bulk_upsert mc s1 uf rest = (.ok (es, c, u), s2) →
      bulk_upsert mc s uf items =
        (.ok (r.1 :: es, if r.2 then c + 1 else c, if r.2 then u else u + 1), s2)) ∧
    (∀ item rest err s1, items = item :: rest →
      upsert mc s uf item = (.error err, s1) →
      bulk_upsert mc s uf items =
        (.error (.DatabaseError ("Falha ao bulk upsert " ++ mc.name)), s1.rollback)) ∧
    (∀ err s', bulk_upsert mc s uf items = (.error err, s') →
      s'.live = s.committed ∧ s'.committed = s.committed) := by
  refine ⟨?_, ?_, ?_, ?_⟩
  · intro es c u s' h
    unfold bulk_upsert at h
    split at h
    · exact absurd (congrArg Prod.fst h) (by simp)
    · rename_i r s'' heq
      have h1 := congrArg Prod.fst h
      have h2 : s'' = s' := congrArg Prod.snd h
      simp only [Except.ok.injEq] at h1
      rw [h2, h1] at heq
      exact bulkUpsertLoop_ok_stats mc uf items s es c u s' heq
  · intro item rest r s1 es c u s2 hitems hup hrest
    subst hitems
    unfold bulk_upsert at hrest ⊢
    rw [bulkUpsertLoop_cons_ok mc uf item rest s r s1 hup]
    split at hrest
    · exact absurd (congrArg Prod.fst hrest) (by simp)
    · rename_i r2 s3 heq2
      have h1 := congrArg Prod.fst hrest
      have h2 : s3 = s2 := congrArg Prod.snd hrest
      simp only [Except.ok.injEq] at h1
      rw [heq2, h1, h2]
  · intro item rest err s1 hitems hup
    subst hitems
    unfold bulk_upsert
    rw [bulkUpsertLoop_cons_err mc uf item rest s err s1 hup]
  · intro err s' h
    exact bulk_upsert_err_live mc s uf items err s' h

theorem claim_C3_witness :
    ∃ es c u s',
      bulk_upsert mcU sAB ["username"]
        [[("username", Value.vStr "alice")], [("username", Value.vStr "eve")]] =
        (.ok (es, c, u), s') ∧ es.length = 2 ∧ c + u = 2 := by
  have hres : bulk_upsert mcU sAB ["username"]
      [[("username", Value.vStr "alice")], [("username", Value.vStr "eve")]] =
      (.ok ([⟨[("id", Value.vInt 1), ("username", Value.vStr "alice"),
          ("role", Value.vStr "admin"), ("updated_at", Value.vInt 100)]⟩,
        ⟨[("username", Value.vStr "eve"), ("id", Value.vInt 3),
          ("created_at", Value.vInt 100), ("updated_at", Value.vInt 100)]⟩], 1, 1),
        ⟨[], [⟨[("id", Value.vInt 1), ("username", Value.vStr "alice"),
          ("role", Value.vStr "admin"), ("updated_at", Value.vInt 100)]⟩,
          ⟨[("id", Value.vInt 2), ("username", Value.vStr "bob"),
            ("role", Value.vStr "operator")]⟩,
          ⟨[("username", Value.vStr "eve"), ("id", Value.vInt 3),
            ("created_at", Value.vInt 100), ("updated_at", Value.vInt 100)]⟩], 4, 100⟩) := by
    decide
  obtain ⟨hlen, hsum, _⟩ := (claim_C3_bulk_upsert mcU sAB ["username"]
    [[("username", Value.vStr "alice")], [("username", Value.vStr "eve")]]).1 _ _ _ _ hres
  exact ⟨_, _, _, _, hres, hlen, hsum⟩

/-- C4 counterexample: `update(1, {username: "bob"})` on a store where a
different row already holds username `"bob"` hits the unique constraint
at flush, so `update` rolls the unit of work back and raises
`DatabaseError` instead of returning the updated entity as the claim
states for every change set. -/
theorem claim_C4_counterexample :
    sAB.live.find? (idIs 1) = some eAlice ∧
    update mcU sAB 1 [("username", Value.vStr "bob")] =
      (.error (.DatabaseError ("Falha ao atualizar " ++ mcU.name)), sAB.rollback) :=
  ⟨by decide, by decide⟩

/-- C4 (amended): `update(id, data)` returns nothing (without error and
without touching the session) when no row has the given id; otherwise,
when the flushed change violates no unique constraint, it overwrites
exactly the keys of `data` that are mapped columns on the first row with
that id, refreshes the update timestamp, leaves every other column of the
row and every other row unchanged, and returns the updated entity (with
an empty change set only the update timestamp changes); when the flushed
change violates a unique constraint, the unit of work is rolled back and
`DatabaseError` is raised. -/
theorem claim_C4_update (mc : ModelClass) (s : Session) (eid : Int)
    (d : List (String × Value)) (hnd : (d.map Prod.fst).Nodup) :
    (s.live.find? (idIs eid) = none → update mc s eid d = (.ok none, s)) ∧
    (∀ ent, s.live.find? (idIs eid) = some ent →
      uniqueViolation mc
        (replaceFirst (idIs eid) (applyUpd mc s.now d ent) s.live) = false →
      ∃ e', update mc s eid d =
          (.ok (some e'), { s with live := replaceFirst (idIs eid) e' s.live }) ∧
        getAttr e' "updated_at" = some (.vInt s.now) ∧
        (∀ k v, k ≠ "updated_at" → lookupKey d k = some v →
          mc.columns.contains k = true → getAttr e' k = some v) ∧
        (∀ k, k ≠ "updated_at" → lookupKey d k = none → getAttr e' k = getAttr ent k) ∧
        (∀ k, k ≠ "updated_at" → mc.columns.contains k = false →
          getAttr e' k = getAttr ent k) ∧
        (d = [] → ∀ k, k ≠ "updated_at" → getAttr e' k = getAttr ent k)) ∧
    (∀ ent, s.live.find? (idIs eid) = some ent →
      uniqueViolation mc
        (replaceFirst (idIs eid) (applyUpd mc s.now d ent) s.live) = true →
      update mc s eid d =
        (.error (.DatabaseError ("Falha ao atualizar " ++ mc.name)), s.rollback)) := by
  refine ⟨?_, ?_, ?_⟩
  · intro hfind
    unfold update
    rw [hfind]
  · intro ent hfind hok
    refine ⟨applyUpd mc s.now d ent, ?_, ?_, ?_, ?_, ?_, ?_⟩
    · unfold update
      rw [hfind]
      show (if uniqueViolation mc
          (replaceFirst (idIs eid) (applyUpd mc s.now d ent) s.live) then
          ((.error (.DatabaseError ("Falha ao atualizar " ++ mc.name)), s.rollback) :
            Except DBError (Option Entity) × Session)
        else
          (.ok (some (applyUpd mc s.now d ent)),
            { s with
              live := replaceFirst (idIs eid) (applyUpd mc s.now d ent) s.live })) = _
      rw [hok]
      rfl
    · exact getAttr_applyUpd_updated mc s.now d ent
    · intro k v hk hl hc
      rw [getAttr_applyUpd_ne mc s.now d ent k hk]
      exact getAttr_applyData_some mc ent d k v hnd hl hc
    · intro k hk hl
      rw [getAttr_applyUpd_ne mc s.now d ent k hk]
      exact getAttr_applyData_none mc ent d k hl
    · intro k hk hc
      rw [getAttr_applyUpd_ne mc s.now d ent k hk]
      exact getAttr_applyData_not_col mc ent d k hc
    · intro hd k hk
      subst hd
      rw [getAttr_applyUpd_ne mc s.now [] ent k hk]
      rfl
  · intro ent hfind hbad
    unfold update
    rw [hfind]
    show (if uniqueViolation mc
        (replaceFirst (idIs eid) (applyUpd mc s.now d ent) s.live) then
        ((.error (.DatabaseError ("Falha ao atualizar " ++ mc.name)), s.rollback) :
          Except DBError (Option Entity) × Session)
      else
        (.ok (some (applyUpd mc s.now d ent)),
          { s with
            live := replaceFirst (idIs eid) (applyUpd mc s.now d ent) s.live })) = _
    rw [hbad]
    rfl

theorem claim_C4_witness : update mcU sAB 9 [] = (.ok none, sAB) :=
  (claim_C4_update mcU sAB 9 [] (by decide)).1 (by decide)

/-- C5 counterexample: the claim says the given limit is always applied,
but `get_by_filters` guards pagination with Python truthiness
(`if limit:`), so a limit of `0` is ignored and every row comes back
instead of none. -/
theorem claim_C5_counterexample :
    get_by_filters mcU sAB [] none (some 0) none false = .ok [eAlice, eBob] ∧
    get_by_filters mcU sAB [] none (some 0) none false ≠ .ok [] :=
  ⟨by decide, by decide⟩

/-- C5 (amended): `get_by_filters` interprets scalar filter values as
equality and list values as membership, conjoined; it orders by the single
`order_by` column ascending by default and descending on request, then
drops `offset` rows and keeps `limit` rows — except that a limit or offset
of `0` is treated as absent (so `limit 0` returns all remaining rows); a
non-mapped `order_by` column raises `DatabaseError`. -/
theorem claim_C5_get_by_filters (mc : ModelClass) (s : Session)
    (filters : List (String × FilterVal)) (limit offset : Option Nat) (dsc : Bool)
    (hf : ∀ kv ∈ filters, mc.columns.contains kv.1 = true) :
    (∀ ob, mc.columns.contains ob = false →
      get_by_filters mc s filters (some ob) limit offset dsc =
        .error (.DatabaseError ("Falha ao filtrar " ++ mc.name))) ∧
    (get_by_filters mc s filters none limit offset dsc =
      .ok (((s.live.filter (rowMatches filters)).drop (offset.getD 0)).take
        (if limit.getD 0 = 0 then (s.live.filter (rowMatches filters)).length
          else limit.getD 0))) ∧
    (∀ ob, mc.columns.contains ob = true →
      ∃ sorted : List Entity, sorted.Perm (s.live.filter (rowMatches filters)) ∧
        sorted.Pairwise (fun a b =>
          (if dsc then keyLe (getAttr b ob) (getAttr a ob)
            else keyLe (getAttr a ob) (getAttr b ob)) = true) ∧
        get_by_filters mc s filters (some ob) limit offset dsc =
          .ok ((sorted.drop (offset.getD 0)).take
            (if limit.getD 0 = 0 then sorted.length else limit.getD 0))) := by
  refine ⟨?_, ?_, ?_⟩
  · intro ob hob
    exact get_by_filters_bad_order mc s filters ob limit offset dsc hob
  · rw [get_by_filters_valid_no_order mc s filters limit offset dsc hf, applyPage_eq]
  · intro ob hob
    refine ⟨(s.live.filter (rowMatches filters)).insertionSort (entLe ob dsc),
      List.perm_insertionSort (entLe ob dsc) _, ?_, ?_⟩
    · exact List.sorted_insertionSort (entLe ob dsc) _
    · rw [get_by_filters_valid_order mc s filters ob limit offset dsc hf hob,
        applyPage_eq]

theorem claim_C5_witness :
    get_by_filters mcU sAB [] none (some 1) none false =
      .ok (((sAB.live.filter (rowMatches [])).drop ((none : Option Nat).getD 0)).take
        (if (some 1 : Option Nat).getD 0 = 0 then (sAB.live.filter (rowMatches [])).length
          else (some 1 : Option Nat).getD 0)) :=
  (claim_C5_get_by_filters mcU sAB [] (some 1) none false (by decide)).2.1

/-- C6: a successful `create` from a field mapping yields an entity whose
identifier, creation timestamp and update timestamp are populated, which
agrees with every supplied field, and which a subsequent `get_by_id` on
its identifier returns (given that no other visible row already carries
that identifier). -/
theorem claim_C6_create_roundtrip (mc : ModelClass) (s : Session)
    (d : List (String × Value)) (e' : Entity) (s' : Session) (i : Int)
    (hc : create mc s (.dict d) = (.ok e', s'))
    (hi : getAttr e' "id" = some (.vInt i))
    (hfresh : ∀ r ∈ s.live, idIs i r = false) :
    get_by_id mc s' i = .ok (some e') ∧
    (getAttr e' "id").isSome ∧ (getAttr e' "created_at").isSome ∧
    (getAttr e' "updated_at").isSome ∧
    (∀ k v, lookupKey d k = some v → getAttr e' k = some v) := by
  unfold create at hc
  split at hc
  · exact absurd (congrArg Prod.fst hc) (by simp)
  · rename_i e0 heqB
    split at hc
    · exact absurd (congrArg Prod.fst hc) (by simp)
    · have h1 := congrArg Prod.fst hc
      have h2 := congrArg Prod.snd hc
      simp only [Except.ok.injEq] at h1
      have he0 : e0 = ⟨d⟩ := by
        have heqB' : mkEntity mc d = .ok e0 := heqB
        unfold mkEntity at heqB'
        split at heqB'
        · exact Except.noConfusion heqB'
        · exact (Except.ok.inj heqB').symm
      have h2' : ({ s with
          live := s.live ++ [(applyDefaults s.nextId s.now e0).1]
          nextId := if (applyDefaults s.nextId s.now e0).2 then s.nextId + 1
            else s.nextId } : Session) = s' := congrArg Prod.snd hc
      have hlive : s'.live = s.live ++ [e'] := by
        rw [← h2', ← h1]
      refine ⟨?_, ?_, ?_, ?_, ?_⟩
      · unfold get_by_id
        rw [hlive, List.find?_append]
        have hnone : s.live.find? (idIs i) = none :=
          List.find?_eq_none.mpr (fun x hx => by rw [hfresh x hx]; simp)
        rw [hnone]
        have hyes : idIs i e' = true := by
          unfold idIs
          rw [hi]
          simp
        rw [List.find?_cons_of_pos _ hyes]
        rfl
      · rw [hi]; rfl
      · rw [← h1, he0]
        exact applyDefaults_created_isSome s.nextId s.now ⟨d⟩
      · rw [← h1, he0]
        exact applyDefaults_updated_isSome s.nextId s.now ⟨d⟩
      · intro k v hkv
        rw [← h1, he0]
        exact getAttr_applyDefaults_some s.nextId s.now ⟨d⟩ k v hkv

theorem claim_C6_witness :
    get_by_id mcU ⟨[], [⟨[("username", Value.vStr "w"), ("id", Value.vInt 1),
        ("created_at", Value.vInt 50), ("updated_at", Value.vInt 50)]⟩], 2, 50⟩ 1 =
      .ok (some ⟨[("username", Value.vStr "w"), ("id", Value.vInt 1),
        ("created_at", Value.vInt 50), ("updated_at", Value.vInt 50)]⟩) :=
  (claim_C6_create_roundtrip mcU sE [("username", Value.vStr "w")]
    ⟨[("username", Value.vStr "w"), ("id", Value.vInt 1),
      ("created_at", Value.vInt 50), ("updated_at", Value.vInt 50)]⟩
    ⟨[], [⟨[("username", Value.vStr "w"), ("id", Value.vInt 1),
      ("created_at", Value.vInt 50), ("updated_at", Value.vInt 50)]⟩], 2, 50⟩
    1 (by decide) (by decide) (by decide)).1

/-- C7: `delete_many` removes exactly the rows matching the conjunctive
filter set, leaves every non-matching row in place, and returns the number
of rows removed. -/
theorem claim_C7_delete_many (mc : ModelClass) (s : Session)
    (fd : List (String × FilterVal))
    (hvalid : ∀ kv ∈ fd, mc.columns.contains kv.1 = true) :
    ∃ n s', delete_many mc s fd = (.ok n, s') ∧
      n = (s.live.filter (rowMatches fd)).length ∧
      s'.live = s.live.filter (fun e => !(rowMatches fd e)) ∧
      s'.committed = s.committed ∧
      (∀ e ∈ s'.live, e ∈ s.live ∧ rowMatches fd e = false) ∧
      (∀ e ∈ s.live, rowMatches fd e = false → e ∈ s'.live) ∧
      n + s'.live.length = s.live.length := by
  have hcond : fd.any (fun kv => !(mc.columns.contains kv.1)) = false := by
    rw [List.any_eq_false]
    intro kv hkv
    rw [hvalid kv hkv]
    simp
  refine ⟨(s.live.filter (rowMatches fd)).length,
    { s with live := s.live.filter (fun e => !(rowMatches fd e)) }, ?_, rfl, rfl, rfl,
    ?_, ?_, ?_⟩
  · unfold delete_many
    rw [if_neg (by rw [hcond]; simp)]
  · intro e he
    have hm := List.mem_filter.mp he
    exact ⟨hm.1, by simpa using hm.2⟩
  · intro e he hnm
    exact List.mem_filter.mpr ⟨he, by simp [hnm]⟩
  · show (s.live.filter (rowMatches fd)).length +
      (s.live.filter (fun e => !(rowMatches fd e))).length = s.live.length
    exact (List.length_eq_length_filter_add (rowMatches fd)).symm

theorem claim_C7_witness :
    ∃ n s', delete_many mcU sAB [("role", FilterVal.scalar (Value.vStr "admin"))] =
      (.ok n, s') ∧
      n = (sAB.live.filter
        (rowMatches [("role", FilterVal.scalar (Value.vStr "admin"))])).length ∧
      s'.live = sAB.live.filter
        (fun e => !(rowMatches [("role", FilterVal.scalar (Value.vStr "admin"))] e)) ∧
      s'.committed = sAB.committed ∧
      (∀ e ∈ s'.live, e ∈ sAB.live ∧
        rowMatches [("role", FilterVal.scalar (Value.vStr "admin"))] e = false) ∧
      (∀ e ∈ sAB.live,
        rowMatches [("role", FilterVal.scalar (Value.vStr "admin"))] e = false →
          e ∈ s'.live) ∧
      n + s'.live.length = sAB.live.length :=
  claim_C7_delete_many mcU sAB [("role", FilterVal.scalar (Value.vStr "admin"))]
    (by decide)

/-- C8: an absent identifier is never an error: `get_by_id` returns
nothing, `update` returns nothing leaving the session untouched, and
`delete` returns `false` leaving the session untouched; none of them
raises. -/
theorem claim_C8_absent_not_error (mc : ModelClass) (s : Session) (eid : Int)
    (h : s.live.find? (idIs eid) = none) :
    get_by_id mc s eid = .ok none ∧
    (∀ d, update mc s eid d = (.ok none, s)) ∧
    delete mc s eid = (.ok false, s) := by
  refine ⟨?_, ?_, ?_⟩
  · unfold get_by_id
    rw [h]
  · intro d
    unfold update
    rw [h]
  · unfold delete
    rw [h]

theorem claim_C8_witness : get_by_id mcU sAB 9 = .ok none :=
  (claim_C8_absent_not_error mcU sAB 9 (by decide)).1

/-- C9: deleting a stored identifier removes exactly that row and returns
`true`, and a subsequent `get_by_id` on the identifier returns nothing
(identifiers being unique among visible rows). -/
theorem claim_C9_delete_then_get (mc : ModelClass) (s : Session) (eid : Int)
    (ent : Entity) (hfind : s.live.find? (idIs eid) = some ent)
    (huniq : (s.live.filter (idIs eid)).length ≤ 1) :
    ∃ l1 l2, s.live = l1 ++ ent :: l2 ∧ (∀ y ∈ l1, idIs eid y = false) ∧
      delete mc s eid = (.ok true, { s with live := l1 ++ l2 }) ∧
      get_by_id mc { s with live := l1 ++ l2 } eid = .ok none := by
  obtain ⟨l1, l2, hsplit, hall, hx⟩ := find?_some_decomp (idIs eid) s.live ent hfind
  have hrem : removeFirst (idIs eid) s.live = l1 ++ l2 := by
    rw [hsplit]
    exact removeFirst_of_prefix (idIs eid) l1 l2 ent hall hx
  have hl2 : l2.filter (idIs eid) = [] := by
    have hfl : s.live.filter (idIs eid) =
        (l1.filter (idIs eid)) ++ ent :: l2.filter (idIs eid) := by
      rw [hsplit, List.filter_append, List.filter_cons_of_pos hx]
    have hl1 : l1.filter (idIs eid) = [] :=
      List.filter_eq_nil_iff.mpr (fun y hy => by rw [hall y hy]; simp)
    rw [hfl, hl1, List.nil_append] at huniq
    simp only [List.length_cons] at huniq
    have : (l2.filter (idIs eid)).length = 0 := by omega
    exact List.length_eq_zero.mp this
  refine ⟨l1, l2, hsplit, hall, ?_, ?_⟩
  · unfold delete
    rw [hfind, hrem]
  · unfold get_by_id
    have h1 : l1.find? (idIs eid) = none :=
      List.find?_eq_none.mpr (fun y hy => by rw [hall y hy]; simp)
    have h2 : l2.find? (idIs eid) = none := by
      rw [find?_eq_head_filter, hl2]
      rfl
    show Except.ok ((l1 ++ l2).find? (idIs eid)) = .ok none
    rw [List.find?_append, h1, h2]
    rfl

theorem claim_C9_witness :
    ∃ l1 l2, sAB.live = l1 ++ eAlice :: l2 ∧ (∀ y ∈ l1, idIs 1 y = false) ∧
      delete mcU sAB 1 = (.ok true, { sAB with live := l1 ++ l2 }) ∧
      get_by_id mcU { sAB with live := l1 ++ l2 } 1 = .ok none :=
  claim_C9_delete_then_get mcU sAB 1 eAlice (by decide) (by decide)

/-- C10 counterexample: with `uniqueFields = ["role"]` and
`data = {username: "bob"}` the lookup filter is empty, so the first row
(alice) is targeted, but setting its `username` to `"bob"` collides with
the other row at flush: `upsert` rolls back and raises `DatabaseError`
instead of reporting `created = false` as the claim states whenever the
store is non-empty. -/
theorem claim_C10_counterexample :
    (∀ f ∈ ["role"], lookupKey [("username", Value.vStr "bob")] f = none) ∧
    sAB.live ≠ [] ∧
    upsert mcU sAB ["role"] [("username", Value.vStr "bob")] =
      (.error (.DatabaseError ("Falha ao upsert " ++ mcU.name)), sAB.rollback) :=
  ⟨by decide, by decide, by decide⟩

/-- C10 (amended): when no unique field occurs in `data`, the lookup
filter of `upsert` is empty and matches every visible row
(`get_by_filters` with an empty filter set returns them all); hence on a
non-empty store `upsert` targets the first row in store order: when the
in-place update violates no unique constraint it reports
`created = false` with the row count unchanged, and when it does violate
one the unit of work is rolled back and `DatabaseError` is raised; in
either case no entity is ever created. -/
theorem claim_C10_upsert_empty_filter (mc : ModelClass) (s : Session)
    (uf : List String) (d : List (String × Value))
    (hdisj : ∀ f ∈ uf, lookupKey d f = none) (hne : s.live ≠ []) :
    upsertFilters uf d = [] ∧
    get_by_filters mc s [] none none none false = .ok s.live ∧
    (∃ ent rest, s.live = ent :: rest ∧
      (uniqueViolation mc (applyUpd mc s.now d ent :: rest) = false →
        upsert mc s uf d =
          (.ok (applyUpd mc s.now d ent, false),
            { s with live := applyUpd mc s.now d ent :: rest }) ∧
        (upsert mc s uf d).2.live.length = s.live.length) ∧
      (uniqueViolation mc (applyUpd mc s.now d ent :: rest) = true →
        upsert mc s uf d =
          (.error (.DatabaseError ("Falha ao upsert " ++ mc.name)), s.rollback)) ∧
      (∀ e b s', upsert mc s uf d = (.ok (e, b), s') → b = false)) := by
  have hflt : upsertFilters uf d = [] := by
    unfold upsertFilters
    rw [List.filterMap_eq_nil_iff]
    intro f hf
    rw [hdisj f hf]
    rfl
  have hall : ∀ e, rowMatches ([] : List (String × FilterVal)) e = true := by
    intro e
    rfl
  have hvalid0 : ∀ kv ∈ upsertFilters uf d, mc.columns.contains kv.1 = true := by
    rw [hflt]
    intro kv hkv
    cases hkv
  refine ⟨hflt, ?_, ?_⟩
  · rw [get_by_filters_valid_no_order mc s [] none none false (by intro kv hkv; cases hkv),
      applyPage_none_none]
    congr 1
    exact List.filter_eq_self.mpr (fun e _ => hall e)
  · cases hlive : s.live with
    | nil => exact absurd hlive hne
    | cons ent rest =>
      have hfind : s.live.find? (rowMatches (upsertFilters uf d)) = some ent := by
        rw [hflt, hlive]
        exact List.find?_cons_of_pos _ (hall ent)
      have hrepl : replaceFirst (rowMatches (upsertFilters uf d))
          (applyUpd mc s.now d ent) s.live = applyUpd mc s.now d ent :: rest := by
        rw [hflt, hlive]
        unfold replaceFirst
        rw [if_pos (hall ent)]
      refine ⟨ent, rest, rfl, ?_, ?_, ?_⟩
      · intro hok0
        have hok : uniqueViolation mc (replaceFirst (rowMatches (upsertFilters uf d))
            (applyUpd mc s.now d ent) s.live) = false := by
          rw [hrepl]
          exact hok0
        have hup := upsert_found_ok mc s uf d ent hvalid0 hfind hok
        constructor
        · rw [hup, hrepl]
        · rw [hup]
          show (replaceFirst (rowMatches (upsertFilters uf d))
            (applyUpd mc s.now d ent) s.live).length = (ent :: rest).length
          rw [hrepl]
          rfl
      · intro hbad0
        have hbad : uniqueViolation mc (replaceFirst (rowMatches (upsertFilters uf d))
            (applyUpd mc s.now d ent) s.live) = true := by
          rw [hrepl]
          exact hbad0
        exact upsert_found_err mc s uf d ent hvalid0 hfind hbad
      · intro e b s' h
        by_cases hv : uniqueViolation mc (replaceFirst (rowMatches (upsertFilters uf d))
            (applyUpd mc s.now d ent) s.live) = true
        · rw [upsert_found_err mc s uf d ent hvalid0 hfind hv] at h
          exact absurd (congrArg Prod.fst h) (by simp)
        · have hok : uniqueViolation mc (replaceFirst (rowMatches (upsertFilters uf d))
              (applyUpd mc s.now d ent) s.live) = false := by
            simpa using hv
          rw [upsert_found_ok mc s uf d ent hvalid0 hfind hok] at h
          have h1 := congrArg Prod.fst h
          simp only [Except.ok.injEq, Prod.mk.injEq] at h1
          exact h1.2.symm

theorem claim_C10_witness :
    upsertFilters ["username"] [("role", Value.vStr "boss")] = [] ∧
    get_by_filters mcU sAB [] none none none false = .ok sAB.live ∧
    (∃ ent rest, sAB.live = ent :: rest ∧
      (uniqueViolation mcU
          (applyUpd mcU sAB.now [("role", Value.vStr "boss")] ent :: rest) = false →
        upsert mcU sAB ["username"] [("role", Value.vStr "boss")] =
          (.ok (applyUpd mcU sAB.now [("role", Value.vStr "boss")] ent, false),
            { sAB with
              live := applyUpd mcU sAB.now [("role", Value.vStr "boss")] ent :: rest }) ∧
        (upsert mcU sAB ["username"] [("role", Value.vStr "boss")]).2.live.length =
          sAB.live.length) ∧
      (uniqueViolation mcU
          (applyUpd mcU sAB.now [("role", Value.vStr "boss")] ent :: rest) = true →
        upsert mcU sAB ["username"] [("role", Value.vStr "boss")] =
          (.error (.DatabaseError ("Falha ao upsert " ++ mcU.name)), sAB.rollback)) ∧
      (∀ e b s', upsert mcU sAB ["username"] [("role", Value.vStr "boss")] =
        (.ok (e, b), s') → b = false)) :=
  claim_C10_upsert_empty_filter mcU sAB ["username"] [("role", Value.vStr "boss")]
    (by decide) (by decide)

end BPA

